import Mathlib

/-!
Shallow embedding of `sqldiff.py`: the schema-text parser (Column / Key /
Table / Schema) and the structural diff engine (comparison grid, drop-tables
mode, alter-tables mode), together with proofs of the behavioural claims
about them.

Python dictionaries are modelled as association lists with Python's
insertion semantics (updating an existing key keeps its position, a new key
is appended); Python sets of dictionary keys are modelled as the key lists,
with union / intersection / difference implemented as order-fixing list
operations (set iteration order is not part of the program's contract).
Exceptions are modelled with `Except`: the distinction between `ValueError`
(caught by `Schema.parse`) and `IndexError` (not caught) is tracked in the
error type.  All string primitives are implemented by structural recursion
on `List Char` so that every definition evaluates inside the kernel.
-/

deriving instance DecidableEq for Except

namespace SqlDiff

/-- Drop characters satisfying `p` from the end of a list. -/
def dropWhileEnd (p : Char → Bool) (l : List Char) : List Char :=
  (l.reverse.dropWhile p).reverse

/-- Python `str.strip(chars)` on a character list: remove leading and
trailing characters that belong to `cs`. -/
def pyStripL (cs : List Char) (l : List Char) : List Char :=
  dropWhileEnd (fun c => cs.contains c) (l.dropWhile (fun c => cs.contains c))

/-- Python `str.strip(chars)`. -/
def pyStrip (cs : List Char) (s : String) : String :=
  String.mk (pyStripL cs s.toList)

/-- Python `str.split()` (no argument): split on runs of whitespace,
discarding empty pieces.  `cur` is the current word, reversed. -/
def pySplitWsAux (cur : List Char) : List Char → List String
  | [] => if cur.isEmpty then [] else [String.mk cur.reverse]
  | c :: rest =>
    if c.isWhitespace then
      if cur.isEmpty then pySplitWsAux [] rest
      else String.mk cur.reverse :: pySplitWsAux [] rest
    else pySplitWsAux (c :: cur) rest

/-- Python `str.split()` with no argument. -/
def pySplitWs (s : String) : List String :=
  pySplitWsAux [] s.toList

/-- Does `pat` occur as a contiguous sublist of `l`?  Models Python
`pat in s` for a non-empty pattern. -/
def containsSubL (pat : List Char) : List Char → Bool
  | [] => pat.isEmpty
  | c :: rest => pat.isPrefixOf (c :: rest) || containsSubL pat rest

/-- Python `pat in s`: substring test. -/
def pyContains (s pat : String) : Bool :=
  containsSubL pat.toList s.toList

/-- Python `str.split(sep)` for a single-character separator: split at every
occurrence, keeping empty pieces. -/
def splitCharL (sep : Char) : List Char → List (List Char)
  | [] => [[]]
  | c :: rest =>
    if c = sep then [] :: splitCharL sep rest
    else
      match splitCharL sep rest with
      | [] => [[c]]
      | w :: ws => (c :: w) :: ws

/-- Python `str.split(sep)` for a single-character separator, as strings. -/
def pySplitChar (sep : Char) (s : String) : List String :=
  (splitCharL sep s.toList).map String.mk

/-- `re.split(r'\n\n', text)`: split at each leftmost non-overlapping
occurrence of two consecutive newlines (`PAT_TABLE_SPLIT`). -/
def splitNNL : List Char → List (List Char)
  | [] => [[]]
  | '\n' :: '\n' :: rest => [] :: splitNNL rest
  | c :: rest =>
    match splitNNL rest with
    | [] => [[c]]
    | w :: ws => (c :: w) :: ws

/-- Digit-and-underscore tail of a Python integer literal: after the first
digit, single underscores may separate digits (`1_0` is fine, `1__0` and a
trailing `_` are not).  `acc` is the value of the digits read so far. -/
def pyIntAux (acc : Nat) : List Char → Option Nat
  | [] => some acc
  | c :: cs =>
    if c.isDigit then pyIntAux (acc * 10 + (c.toNat - 48)) cs
    else if c = '_' then
      match cs with
      | [] => none
      | d :: cs2 =>
        if d.isDigit then pyIntAux (acc * 10 + (d.toNat - 48)) cs2 else none
    else none

/-- Unsigned digit string (Python rules: non-empty, starts with a digit,
underscores only between digits). -/
def pyIntBody : List Char → Option Nat
  | [] => none
  | c :: cs => if c.isDigit then pyIntAux (c.toNat - 48) cs else none

/-- Python `int(s)`: strip surrounding whitespace, optional sign, ASCII
digits with underscores between digits; `none` models `ValueError`. -/
def pyInt (s : String) : Option Int :=
  let t := s.toList.dropWhile Char.isWhitespace
  let t := dropWhileEnd Char.isWhitespace t
  match t with
  | '+' :: rest => (pyIntBody rest).map (fun n => (n : Int))
  | '-' :: rest => (pyIntBody rest).map (fun n => -(n : Int))
  | rest => (pyIntBody rest).map (fun n => (n : Int))

/-- One table column (`class Column`).  `sql` is the raw definition line kept
verbatim, the remaining fields are the typed attributes extracted by
`Column.parse`. -/
structure Column where
  sql : String
  name : String
  type : String
  length : Option Int
  precision : Option Int
  auto : Bool
  nullable : Bool
deriving Repr, DecidableEq, Inhabited

/-- `Column.__eq__`: name, type, length, precision, auto and nullable must
match, except that when the left operand's type is `datetime` both length
fields are replaced by `None` before comparing. -/
def columnEq (a b : Column) : Bool :=
  let lengths : Option Int × Option Int :=
    if a.type = "datetime" then (none, none) else (a.length, b.length)
  a.name == b.name &&
  a.type == b.type &&
  lengths.1 == lengths.2 &&
  a.precision == b.precision &&
  a.auto == b.auto &&
  a.nullable == b.nullable

/-- The two ways `Column.parse` can raise: `indexError` models the
`IndexError` from `parts[0]` / `parts[1]` on a line with fewer than two
tokens (not caught anywhere), `valueError` models the `ValueError` raised by
`int()` or tuple unpacking on a malformed size (caught by `Schema.parse`). -/
inductive ColErr where
  | indexError
  | valueError
deriving Repr, DecidableEq

/-- `Column.parse`: determine nullability from the `NOT NULL` marker, strip
spaces and commas, split on whitespace; token 0 (backticks stripped) is the
name, token 1 the type, with an optional parenthesized `length` or
`length,precision`; remaining tokens are scanned for `AUTO_INCREMENT`. -/
def pyParseColumn (sql : String) : Except ColErr Column :=
  let nullable := !(pyContains sql "NOT NULL")
  match pySplitWs (pyStrip [' ', ','] sql) with
  | [] => .error .indexError
  | [_] => .error .indexError
  | p0 :: p1 :: rest =>
    let name := pyStrip ['`'] p0
    let auto := rest.contains "AUTO_INCREMENT"
    if p1.toList.contains '(' then
      match pySplitChar '(' (pyStrip [')'] p1) with
      | [ty, len] =>
        if len.toList.contains ',' then
          match pySplitChar ',' len with
          | [l, p] =>
            match pyInt p, pyInt l with
            | some pv, some lv =>
              .ok { sql, name, type := ty, length := some lv,
                    precision := some pv, auto, nullable }
            | _, _ => .error .valueError
          | _ => .error .valueError
        else
          match pyInt len with
          | some lv =>
            .ok { sql, name, type := ty, length := some lv,
                  precision := none, auto, nullable }
          | none => .error .valueError
      | _ => .error .valueError
    else
      .ok { sql, name, type := p1, length := none, precision := none,
            auto, nullable }

example : pyParseColumn "`foo` int(11) NOT NULL AUTO_INCREMENT" =
    .ok { sql := "`foo` int(11) NOT NULL AUTO_INCREMENT", name := "foo",
          type := "int", length := some 11, precision := none,
          auto := true, nullable := false } := by decide

example : pyParseColumn "`score` decimal(5,2) DEFAULT NULL" =
    .ok { sql := "`score` decimal(5,2) DEFAULT NULL", name := "score",
          type := "decimal", length := some 5, precision := some 2,
          auto := false, nullable := true } := by decide

/-- One key/index declaration (`class Key`).  `name` is never populated by
`Key.parse`. -/
structure Key where
  sql : String
  name : Option String
deriving Repr, DecidableEq, Inhabited

/-- `Key.parse`: recognizes a `PRIMARY KEY` prefix but extracts nothing;
always succeeds with `name` unset. -/
def pyParseKey (sql : String) : Key :=
  { sql, name := none }

/-- Python `dict` insertion: updating an existing key keeps its position,
a new key is appended. -/
def dictInsert {α β : Type} [BEq α] (d : List (α × β)) (k : α) (v : β) :
    List (α × β) :=
  if d.any (fun p => p.1 == k) then
    d.map (fun p => if p.1 == k then (k, v) else p)
  else d ++ [(k, v)]

/-- The keys of a Python dict, in insertion order. -/
def dictKeys {α β : Type} (d : List (α × β)) : List α :=
  d.map Prod.fst

/-- One CREATE TABLE block (`class Table`): the raw block, the table name
(once recognized), the name-keyed column dict and the name-keyed key dict. -/
structure Table where
  sql : String
  name : Option String
  columns : List (String × Column)
  keys : List (Option String × Key)
deriving Repr, DecidableEq, Inhabited

/-- How `Table.parse` can raise: a column `ValueError` or `IndexError`
propagating out of `Column.parse`, or the final
`ValueError('Invalid table definition')` when no table name was found. -/
inductive TblErr where
  | columnValueError
  | columnIndexError
  | invalidTableDefinition
deriving Repr, DecidableEq

/-- `\w` of `PAT_TABLE_NAME` (ASCII word character). -/
def isWordChar (c : Char) : Bool :=
  c.isAlphanum || c = '_'

/-- `PAT_TABLE_NAME.match(line)`: the whole line must read
`CREATE TABLE \x60<name>\x60 (` with a non-empty word-character name;
returns the captured name. -/
def matchTableName (line : String) : Option String :=
  let l := line.toList
  let pre := "CREATE TABLE `".toList
  let suf := "` (".toList
  if pre.isPrefixOf l && suf.isSuffixOf l then
    let tail := l.drop pre.length
    let mid := tail.take (tail.length - suf.length)
    if !mid.isEmpty && mid.all isWordChar then some (String.mk mid) else none
  else none

/-- `Table.add_column`: parse the line and insert the column keyed by its
name (last write wins). -/
def tableAddColumn (t : Table) (line : String) : Except ColErr Table :=
  match pyParseColumn line with
  | .ok col => .ok { t with columns := dictInsert t.columns col.name col }
  | .error e => .error e

/-- `Table.add_key`: parse the line and insert the key under its (always
absent) name. -/
def tableAddKey (t : Table) (line : String) : Table :=
  let k := pyParseKey line
  { t with keys := dictInsert t.keys k.name k }

/-- The per-line loop of `Table.parse`: strip spaces and commas, then in
order try the table-name pattern, a backtick-led column line, a line
containing `KEY`, and a closing line starting with `)` (which stops the
scan).  Any other line is ignored. -/
def pyTableParseLines (t : Table) : List String → Except TblErr Table
  | [] => .ok t
  | line :: rest =>
    let line := pyStrip [' ', ','] line
    match matchTableName line with
    | some n => pyTableParseLines { t with name := some n } rest
    | none =>
      if ['`'].isPrefixOf line.toList then
        match tableAddColumn t line with
        | .ok t2 => pyTableParseLines t2 rest
        | .error .valueError => .error .columnValueError
        | .error .indexError => .error .columnIndexError
      else if pyContains line "KEY" then
        pyTableParseLines (tableAddKey t line) rest
      else if [')'].isPrefixOf line.toList then
        .ok t
      else
        pyTableParseLines t rest

/-- `Table.parse`: run the line loop over the block split on newlines, then
fail with `InvalidTableDefinition` when the recorded name is falsy (absent
or empty). -/
def pyTableParse (sql : String) : Except TblErr Table :=
  match pyTableParseLines { sql, name := none, columns := [], keys := [] }
      (pySplitChar '\n' sql) with
  | .ok t =>
    if t.name.getD "" = "" then .error .invalidTableDefinition else .ok t
  | .error e => .error e

example : pyTableParse "CREATE TABLE `users` (\n  `id` int(11) NOT NULL,\n  PRIMARY KEY (`id`)\n) ENGINE=InnoDB" =
    .ok { sql := "CREATE TABLE `users` (\n  `id` int(11) NOT NULL,\n  PRIMARY KEY (`id`)\n) ENGINE=InnoDB",
          name := some "users",
          columns := [("id", { sql := "`id` int(11) NOT NULL", name := "id",
                               type := "int", length := some 11,
                               precision := none, auto := false,
                               nullable := false })],
          keys := [(none, { sql := "PRIMARY KEY (`id`)", name := none })] } := by
  decide

/-- One parsed dump file (`class Schema`).  The `db` / `server version`
comment extraction (`PAT_SCHEMA_DB`, `PAT_SCHEMA_VERSION`) feeds only the
grid header text and is not referenced by any claim, so the two fields are
carried but left at their initial `None`. -/
structure Schema where
  sql : String
  name : String
  db : Option String := none
  version : Option String := none
  tables : List (String × Table)
deriving Repr, DecidableEq, Inhabited

/-- The block loop of `Schema.parse`: feed every blank-line-separated block
to `Table.parse`; a `ValueError` (invalid table definition, or a malformed
column's `ValueError` re-raised through `Table.parse`) skips the block,
while an `IndexError` propagates. -/
def pySchemaAddBlocks (s : Schema) : List String → Except TblErr Schema
  | [] => .ok s
  | b :: rest =>
    match pyTableParse b with
    | .ok t =>
      pySchemaAddBlocks { s with tables := dictInsert s.tables (t.name.getD "") t } rest
    | .error .columnIndexError => .error .columnIndexError
    | .error _ => pySchemaAddBlocks s rest

/-- `Schema.parse` on the file's text: split on double newlines and add each
block (file reading itself is outside the model). -/
def pySchemaParse (sqlText : String) (name : String) : Except TblErr Schema :=
  pySchemaAddBlocks { sql := sqlText, name, tables := [] }
    ((splitNNL sqlText.toList).map String.mk)

/-- `format_table(name)`: the banner `---- <NAME UPPERCASED> ----`. -/
def format_table (name : String) : String :=
  "---- " ++ String.mk (name.toList.map Char.toUpper) ++ " ----"

/-- `set.union` over dict-key sets, enumerated as: all of `a`, then the
elements of `b` not in `a`.  (Python set iteration order is unspecified;
this fixes one enumeration.) -/
def setUnion (a b : List String) : List String :=
  a ++ b.filter (fun x => !(a.contains x))

/-- `set.intersection` over dict-key sets. -/
def setInter (a b : List String) : List String :=
  a.filter (fun x => b.contains x)

/-- `set.difference` over dict-key sets. -/
def setDiff (a b : List String) : List String :=
  a.filter (fun x => !(b.contains x))

/-- `Differences.sql_drop_tables`: one `DROP TABLE` statement per table
present in destination but not in source. -/
def sql_drop_tables (src dst : Schema) : List String :=
  (setDiff (dictKeys dst.tables) (dictKeys src.tables)).map
    (fun n => "DROP TABLE `" ++ n ++ "`;")

/-- The statements `Differences.sql_alter_tables` emits for one column name
of a table present in both schemas: ADD for source-only columns, DROP for
destination-only columns, MODIFY for columns present on both sides but
unequal, nothing for equal columns. -/
def alterStmtsForCol (srcT dstT : Table) (col : String) : List String :=
  let srcCols := dictKeys srcT.columns
  let dstCols := dictKeys dstT.columns
  if srcCols.contains col && !(dstCols.contains col) then
    ["ALTER TABLE `" ++ dstT.name.getD "" ++ "` ADD COLUMN " ++
      ((srcT.columns.lookup col).getD default).sql ++ ";"]
  else if dstCols.contains col && !(srcCols.contains col) then
    ["ALTER TABLE `" ++ dstT.name.getD "" ++ "` DROP COLUMN `" ++ col ++ "`;"]
  else
    -- both branches above failed: the loop reaches `src_table[col] != dst_table[col]`
    if !(columnEq ((srcT.columns.lookup col).getD default)
                  ((dstT.columns.lookup col).getD default)) then
      ["ALTER TABLE `" ++ dstT.name.getD "" ++ "` MODIFY COLUMN " ++
        ((srcT.columns.lookup col).getD default).sql ++ ";"]
    else []

/-- The statements `Differences.sql_alter_tables` emits for one shared
table: the per-column statements over the union of the two column-name
sets. -/
def tableAlterStmts (srcT dstT : Table) : List String :=
  ((setUnion (dictKeys srcT.columns) (dictKeys dstT.columns)).map
    (alterStmtsForCol srcT dstT)).flatten

/-- `Differences.sql_alter_tables`: per-column ALTER statements for every
table present in both schemas. -/
def sql_alter_tables (src dst : Schema) : List String :=
  ((setInter (dictKeys src.tables) (dictKeys dst.tables)).map
    (fun both =>
      tableAlterStmts ((src.tables.lookup both).getD default)
                      ((dst.tables.lookup both).getD default))).flatten

/-- Python `dict.__eq__` on column dicts: same size, and every key of the
left dict maps in the right dict to a column equal under `Column.__eq__`. -/
def columnsDictEq (a b : List (String × Column)) : Bool :=
  a.length == b.length &&
  a.all (fun p =>
    match b.lookup p.1 with
    | some c => columnEq p.2 c
    | none => false)

/-- The grid row(s) `Differences.print_columns` writes for one column name
of a shared table. -/
def colRows (srcT dstT : Table) (col : String) : List (List String) :=
  let srcCols := dictKeys srcT.columns
  let dstCols := dictKeys dstT.columns
  if srcCols.contains col && !(dstCols.contains col) then
    [[((srcT.columns.lookup col).getD default).sql, ""]]
  else if dstCols.contains col && !(srcCols.contains col) then
    [["", ((dstT.columns.lookup col).getD default).sql]]
  else
    let s := (srcT.columns.lookup col).getD default
    let d := (dstT.columns.lookup col).getD default
    if !(columnEq s d) then [[s.sql, d.sql]] else []

/-- `Differences.print_columns`: nothing when the two column dicts compare
equal; otherwise a banner row with both table names followed by the
per-column rows over the union of the column-name sets. -/
def print_columns_rows (srcT dstT : Table) : List (List String) :=
  if columnsDictEq srcT.columns dstT.columns then []
  else
    [format_table (srcT.name.getD ""), format_table (dstT.name.getD "")] ::
      ((setUnion (dictKeys srcT.columns) (dictKeys dstT.columns)).map
        (colRows srcT dstT)).flatten

/-- The grid row(s) `Differences.print_tables` writes for one table name of
the union: note the code writes `['', banner]` for a source-only table and
`[banner, '']` for a destination-only table. -/
def tableRows (src dst : Schema) (table : String) : List (List String) :=
  let srcTs := dictKeys src.tables
  let dstTs := dictKeys dst.tables
  if srcTs.contains table && !(dstTs.contains table) then
    [["", format_table table]]
  else if dstTs.contains table && !(srcTs.contains table) then
    [[format_table table, ""]]
  else
    print_columns_rows ((src.tables.lookup table).getD default)
                       ((dst.tables.lookup table).getD default)

/-- The body rows of the default comparison grid (`print_tables` minus the
header row, which is always written). -/
def print_tables_rows (src dst : Schema) : List (List String) :=
  ((setUnion (dictKeys src.tables) (dictKeys dst.tables)).map
    (tableRows src dst)).flatten

/-- Spec-side restatement of column equality (§3 of the spec): name, type,
precision, autoIncrement and nullable must match, and length must match
except when the type is `datetime` on both sides, in which case length is
ignored. -/
def specColumnEq (a b : Column) : Bool :=
  a.name == b.name && a.type == b.type &&
  (if a.type = "datetime" ∧ b.type = "datetime" then true
   else a.length == b.length) &&
  a.precision == b.precision && a.auto == b.auto && a.nullable == b.nullable

/-- Spec-side failure condition on the type token (§4.1): it carries a
parenthesized size expression that cannot be tokenized as integer(s) —
either the split into bare type and size fails, or the size (or its
comma-separated length / precision parts) does not parse as an integer. -/
def columnSizeMalformed (tyTok : String) : Bool :=
  if tyTok.toList.contains '(' then
    match pySplitChar '(' (pyStrip [')'] tyTok) with
    | [_, len] =>
      if len.toList.contains ',' then
        match pySplitChar ',' len with
        | [l, p] => (pyInt l).isNone || (pyInt p).isNone
        | _ => true
      else (pyInt len).isNone
    | _ => true
  else false

/-- The (stripped) lines of a block that `Table.parse`'s loop actually
examines: all lines up to and including the first closing line — a line
that matches none of the table-name / column / `KEY` classifications and
starts with `)`, which stops the scan. -/
def takeProcessed : List String → List String
  | [] => []
  | l :: rest =>
    let s := pyStrip [' ', ','] l
    if (matchTableName s).isSome then s :: takeProcessed rest
    else if ['`'].isPrefixOf s.toList then s :: takeProcessed rest
    else if pyContains s "KEY" then s :: takeProcessed rest
    else if [')'].isPrefixOf s.toList then [s]
    else s :: takeProcessed rest

/-! ### Helper lemmas -/

theorem columnEq_refl (c : Column) : columnEq c c = true := by
  unfold columnEq
  split <;> simp

theorem columnEq_true_iff (a b : Column) :
    columnEq a b = true ↔
      a.name = b.name ∧ a.type = b.type ∧
      (if a.type = "datetime" then True else a.length = b.length) ∧
      a.precision = b.precision ∧ a.auto = b.auto ∧ a.nullable = b.nullable := by
  unfold columnEq
  by_cases h : a.type = "datetime" <;>
    simp [h, Bool.and_eq_true, beq_iff_eq, and_assoc]

theorem columnEq_symm (a b : Column) : columnEq a b = columnEq b a := by
  cases hab : columnEq a b <;> cases hba : columnEq b a <;> try rfl
  · rw [columnEq_true_iff] at hba
    obtain ⟨h1, h2, h3, h4, h5, h6⟩ := hba
    have : columnEq a b = true := by
      rw [columnEq_true_iff]
      refine ⟨h1.symm, h2.symm, ?_, h4.symm, h5.symm, h6.symm⟩
      by_cases hbt : b.type = "datetime"
      · rw [← h2, if_pos hbt]
        trivial
      · rw [← h2, if_neg hbt]
        rw [if_neg hbt] at h3
        exact h3.symm
    rw [this] at hab
    exact hab.symm
  · rw [columnEq_true_iff] at hab
    obtain ⟨h1, h2, h3, h4, h5, h6⟩ := hab
    have : columnEq b a = true := by
      rw [columnEq_true_iff]
      refine ⟨h1.symm, h2.symm, ?_, h4.symm, h5.symm, h6.symm⟩
      by_cases hat : a.type = "datetime"
      · rw [← h2, if_pos hat]
        trivial
      · rw [← h2, if_neg hat]
        rw [if_neg hat] at h3
        exact h3.symm
    rw [this] at hba
    exact hba

theorem columnEq_eq_spec (a b : Column) : columnEq a b = specColumnEq a b := by
  unfold columnEq specColumnEq
  by_cases ha : a.type = "datetime" <;> by_cases hb : b.type = "datetime"
  · simp [ha, hb]
  · have htyeq : (("datetime" : String) == b.type) = false := by
      simp only [beq_eq_false_iff_ne, ne_eq]
      intro h
      exact hb h.symm
    simp [ha, hb, htyeq]
  · have htyeq : (a.type == ("datetime" : String)) = false := by
      simp only [beq_eq_false_iff_ne, ne_eq]
      exact ha
    simp [ha, hb, htyeq]
  · simp [ha, hb]

theorem dictKeys_nil {β : Type} : dictKeys ([] : List (String × β)) = [] := rfl

theorem dictKeys_cons {β : Type} (p : String × β) (l : List (String × β)) :
    dictKeys (p :: l) = p.1 :: dictKeys l := rfl

theorem dictKeys_map_update {β : Type} (d : List (String × β)) (k : String) (v : β) :
    dictKeys (d.map (fun p => if p.1 == k then (k, v) else p)) = dictKeys d := by
  induction d with
  | nil => rfl
  | cons hd tl ih =>
    simp only [List.map_cons, dictKeys_cons]
    rw [ih]
    congr 1
    split
    · rename_i h
      exact (beq_iff_eq.mp h).symm
    · rfl

theorem nodup_dictKeys_dictInsert {β : Type} (d : List (String × β)) (k : String) (v : β)
    (h : (dictKeys d).Nodup) : (dictKeys (dictInsert d k v)).Nodup := by
  unfold dictInsert
  split
  · rwa [dictKeys_map_update]
  · rename_i hnot
    have hk : k ∉ dictKeys d := by
      intro hmem
      apply hnot
      rw [List.any_eq_true]
      obtain ⟨p, hp, he⟩ := List.mem_map.mp hmem
      exact ⟨p, hp, by simp [he]⟩
    have : dictKeys (d ++ [(k, v)]) = dictKeys d ++ [k] := by
      simp [dictKeys]
    rw [this]
    apply List.Nodup.append h (List.nodup_singleton k)
    intro a ha hb
    rw [List.mem_singleton] at hb
    exact hk (hb ▸ ha)

theorem mem_of_mem_dictInsert {β : Type} {d : List (String × β)} {k : String} {v : β}
    {q : String × β} (h : q ∈ dictInsert d k v) : q ∈ d ∨ q = (k, v) := by
  unfold dictInsert at h
  split at h
  · obtain ⟨p, hp, he⟩ := List.mem_map.mp h
    by_cases hpk : (p.1 == k) = true
    · right
      rw [if_pos hpk] at he
      exact he.symm
    · left
      rw [if_neg hpk] at he
      exact he ▸ hp
  · rcases List.mem_append.mp h with h | h
    · exact Or.inl h
    · exact Or.inr (List.mem_singleton.mp h)

theorem lookup_mem {β : Type} {d : List (String × β)} {k : String} {v : β}
    (h : d.lookup k = some v) : (k, v) ∈ d := by
  induction d with
  | nil => simp [List.lookup] at h
  | cons hd tl ih =>
    rw [List.lookup] at h
    by_cases he : (k == hd.1) = true
    · rw [he] at h
      injection h with h
      rw [beq_iff_eq.mp he, ← h]
      exact List.mem_cons_self _ _
    · rw [Bool.not_eq_true] at he
      rw [he] at h
      exact List.mem_cons_of_mem hd (ih h)

theorem lookup_eq_some_of_mem {β : Type} {d : List (String × β)} {k : String} {v : β}
    (hnd : (dictKeys d).Nodup) (hmem : (k, v) ∈ d) : d.lookup k = some v := by
  induction d with
  | nil => cases hmem
  | cons hd tl ih =>
    rw [dictKeys_cons, List.nodup_cons] at hnd
    rcases List.mem_cons.mp hmem with h | h
    · rw [← h, List.lookup]
      simp
    · have hk : k ∈ dictKeys tl := by
        unfold dictKeys
        exact List.mem_map.mpr ⟨(k, v), h, rfl⟩
      have hne : (k == hd.1) = false := by
        rw [beq_eq_false_iff_ne]
        intro he
        exact hnd.1 (he ▸ hk)
      rw [List.lookup, hne]
      exact ih hnd.2 h

theorem mem_dictKeys_lookup {β : Type} {d : List (String × β)} {k : String}
    (h : k ∈ dictKeys d) : ∃ v, d.lookup k = some v := by
  induction d with
  | nil => cases h
  | cons hd tl ih =>
    by_cases he : (k == hd.1) = true
    · exact ⟨hd.2, by rw [List.lookup, he]⟩
    · rw [Bool.not_eq_true] at he
      have : k ∈ dictKeys tl := by
        rcases List.mem_cons.mp h with h1 | h1
        · exact absurd (beq_iff_eq.mpr h1) (by simp [he])
        · exact h1
      obtain ⟨v, hv⟩ := ih this
      exact ⟨v, by rw [List.lookup, he, hv]⟩

theorem columnsDictEq_refl (d : List (String × Column)) (h : (dictKeys d).Nodup) :
    columnsDictEq d d = true := by
  unfold columnsDictEq
  rw [Bool.and_eq_true]
  refine ⟨by simp, ?_⟩
  rw [List.all_eq_true]
  intro p hp
  rw [lookup_eq_some_of_mem h hp]
  exact columnEq_refl p.2

theorem setDiff_self (a : List String) : setDiff a a = [] := by
  unfold setDiff
  rw [List.filter_eq_nil_iff]
  intro x hx
  simp [List.elem_eq_mem, hx]

theorem setInter_self (a : List String) : setInter a a = a := by
  unfold setInter
  rw [List.filter_eq_self]
  intro x hx
  simp [List.elem_eq_mem, hx]

theorem setUnion_self (a : List String) : setUnion a a = a := by
  unfold setUnion
  have : a.filter (fun x => !(a.contains x)) = [] := by
    rw [List.filter_eq_nil_iff]
    intro x hx
    simp [List.elem_eq_mem, hx]
  rw [this, List.append_nil]

theorem flatten_eq_nil_of_all {α : Type} (l : List (List α))
    (h : ∀ x ∈ l, x = []) : l.flatten = [] := by
  induction l with
  | nil => rfl
  | cons hd tl ih =>
    rw [List.flatten_cons, h hd (List.mem_cons_self hd tl), List.nil_append]
    exact ih fun x hx => h x (List.mem_cons_of_mem hd hx)

/-- Structural invariant of association lists built through `dictInsert`:
no duplicate keys.  It holds for the table dict of every parsed schema and
the column dict of every parsed table. -/
def SchemaWF (s : Schema) : Prop :=
  (dictKeys s.tables).Nodup ∧ ∀ p ∈ s.tables, (dictKeys p.2.columns).Nodup

theorem pyTableParseLines_columns_nodup (lines : List String) (t : Table)
    (h : (dictKeys t.columns).Nodup) :
    ∀ t2, pyTableParseLines t lines = .ok t2 → (dictKeys t2.columns).Nodup := by
  induction lines generalizing t with
  | nil =>
    intro t2 h2
    rw [pyTableParseLines] at h2
    injection h2 with h2
    exact h2 ▸ h
  | cons line rest ih =>
    intro t2 h2
    rw [pyTableParseLines] at h2
    split at h2
    · refine ih _ ?_ t2 h2
      exact h
    · split at h2
      · -- column line
        split at h2
        · rename_i t3 hadd
          apply ih t3 ?_ t2 h2
          unfold tableAddColumn at hadd
          split at hadd
          · injection hadd with hadd
            rw [← hadd]
            exact nodup_dictKeys_dictInsert _ _ _ h
          · cases hadd
        · cases h2
        · cases h2
      · split at h2
        · refine ih _ ?_ t2 h2
          exact h
        · split at h2
          · injection h2 with h2
            exact h2 ▸ h
          · exact ih _ h t2 h2

theorem pyTableParse_columns_nodup (block : String) (t : Table)
    (h : pyTableParse block = .ok t) : (dictKeys t.columns).Nodup := by
  unfold pyTableParse at h
  split at h
  · rename_i t0 h0
    split at h
    · cases h
    · injection h with h
      refine h ▸ pyTableParseLines_columns_nodup _ _ ?_ t0 h0
      exact List.nodup_nil
  · cases h

theorem pySchemaAddBlocks_wf (blocks : List String) (s : Schema) (h : SchemaWF s) :
    ∀ s2, pySchemaAddBlocks s blocks = .ok s2 → SchemaWF s2 := by
  induction blocks generalizing s with
  | nil =>
    intro s2 h2
    rw [pySchemaAddBlocks] at h2
    injection h2 with h2
    exact h2 ▸ h
  | cons b rest ih =>
    intro s2 h2
    rw [pySchemaAddBlocks] at h2
    split at h2
    · rename_i t ht
      apply ih _ ?_ s2 h2
      constructor
      · exact nodup_dictKeys_dictInsert _ _ _ h.1
      · intro p hp
        rcases mem_of_mem_dictInsert hp with hmem | hew
        · exact h.2 p hmem
        · rw [hew]
          exact pyTableParse_columns_nodup b t ht
    · cases h2
    · exact ih _ h s2 h2

theorem pySchemaParse_wf (sqlText name : String) (s : Schema)
    (h : pySchemaParse sqlText name = .ok s) : SchemaWF s := by
  refine pySchemaAddBlocks_wf _ _ ⟨?_, ?_⟩ s h
  · exact List.nodup_nil
  · intro p hp
    cases hp

/-- Diffing any well-formed schema against itself yields no grid rows and
no drop/alter statements. -/
theorem self_diff_empty (s : Schema) (hwf : SchemaWF s) :
    print_tables_rows s s = [] ∧ sql_drop_tables s s = [] ∧
      sql_alter_tables s s = [] := by
  refine ⟨?_, ?_, ?_⟩
  · unfold print_tables_rows
    rw [setUnion_self]
    apply flatten_eq_nil_of_all
    intro x hx
    obtain ⟨t, ht, he⟩ := List.mem_map.mp hx
    rw [← he]
    unfold tableRows
    simp only [Bool.and_not_self, if_false, Bool.false_and]
    obtain ⟨tbl, htbl⟩ := mem_dictKeys_lookup ht
    rw [htbl]
    unfold print_columns_rows
    rw [columnsDictEq_refl]
    · rfl
    · have hmem := lookup_mem htbl
      exact hwf.2 _ hmem
  · unfold sql_drop_tables
    rw [setDiff_self]
    rfl
  · unfold sql_alter_tables
    rw [setInter_self]
    apply flatten_eq_nil_of_all
    intro x hx
    obtain ⟨t, ht, he⟩ := List.mem_map.mp hx
    rw [← he]
    unfold tableAlterStmts
    rw [setUnion_self]
    apply flatten_eq_nil_of_all
    intro y hy
    obtain ⟨c, hc, hce⟩ := List.mem_map.mp hy
    rw [← hce]
    unfold alterStmtsForCol
    simp only [Bool.and_not_self, if_false, Bool.false_and]
    rw [columnEq_refl]
    rfl

theorem keys_invariant (lines : List String) (t : Table)
    (h : t.keys = [] ∨ ∃ k, t.keys = [(none, k)]) :
    ∀ t2, pyTableParseLines t lines = .ok t2 →
      t2.keys = [] ∨ ∃ k, t2.keys = [(none, k)] := by
  induction lines generalizing t with
  | nil =>
    intro t2 h2
    rw [pyTableParseLines] at h2
    injection h2 with h2
    exact h2 ▸ h
  | cons line rest ih =>
    intro t2 h2
    rw [pyTableParseLines] at h2
    split at h2
    · refine ih _ ?_ t2 h2
      exact h
    · split at h2
      · split at h2
        · rename_i t3 hadd
          apply ih t3 ?_ t2 h2
          unfold tableAddColumn at hadd
          split at hadd
          · injection hadd with hadd
            rw [← hadd]
            exact h
          · cases hadd
        · cases h2
        · cases h2
      · split at h2
        · refine ih _ ?_ t2 h2
          right
          refine ⟨pyParseKey (pyStrip [' ', ','] line), ?_⟩
          rcases h with h1 | ⟨k, h1⟩ <;>
            simp [tableAddKey, pyParseKey, dictInsert, h1]
        · split at h2
          · injection h2 with h2
            exact h2 ▸ h
          · exact ih _ h t2 h2

/-! ### Claims -/

/-- C3: column equality is reflexive and symmetric for all columns, equals
the conjunction of matching name, type, precision, autoIncrement, nullable
and length with the length conjunct dropped when both types are `datetime`,
and two datetime columns agreeing on everything but length compare equal. -/
theorem C3_column_equality :
    (∀ c : Column, columnEq c c = true) ∧
    (∀ a b : Column, columnEq a b = columnEq b a) ∧
    (∀ a b : Column, columnEq a b = specColumnEq a b) ∧
    (∀ a b : Column, a.type = "datetime" → b.type = "datetime" →
      a.name = b.name → a.precision = b.precision → a.auto = b.auto →
      a.nullable = b.nullable → columnEq a b = true) := by
  refine ⟨columnEq_refl, columnEq_symm, columnEq_eq_spec, ?_⟩
  intro a b hat hbt h1 h4 h5 h6
  rw [columnEq_true_iff]
  refine ⟨h1, hat.trans hbt.symm, ?_, h4, h5, h6⟩
  rw [if_pos hat]
  trivial

def wDt1 : Column :=
  { sql := "`ts` datetime(3) NOT NULL", name := "ts", type := "datetime",
    length := some 3, precision := none, auto := false, nullable := false }

def wDt2 : Column :=
  { sql := "`ts` datetime(6) NOT NULL", name := "ts", type := "datetime",
    length := some 6, precision := none, auto := false, nullable := false }

/-- Witness for C3: two datetime columns differing only in parenthesized
size compare equal. -/
theorem C3_column_equality_witness : columnEq wDt1 wDt2 = true :=
  C3_column_equality.2.2.2 wDt1 wDt2 rfl rfl rfl rfl rfl rfl

/-- C7: the three reference column lines parse to the claimed attribute
values (name, type, length, precision, nullable, autoIncrement). -/
theorem C7_column_parse_examples :
    pyParseColumn "`foo` int(11) NOT NULL AUTO_INCREMENT" =
      .ok { sql := "`foo` int(11) NOT NULL AUTO_INCREMENT", name := "foo",
            type := "int", length := some 11, precision := none,
            auto := true, nullable := false } ∧
    pyParseColumn "`remote_addr_three` smallint(5) unsigned DEFAULT NULL" =
      .ok { sql := "`remote_addr_three` smallint(5) unsigned DEFAULT NULL",
            name := "remote_addr_three", type := "smallint",
            length := some 5, precision := none,
            auto := false, nullable := true } ∧
    pyParseColumn "`score` decimal(5,2) DEFAULT NULL" =
      .ok { sql := "`score` decimal(5,2) DEFAULT NULL", name := "score",
            type := "decimal", length := some 5, precision := some 2,
            auto := false, nullable := true } := by
  decide

/-- C10: key parsing never fails and always leaves `name` unset, so the keys
dict of any parsed table holds at most one entry (every `KEY` line is
inserted under the key `None`, each overwriting the previous one). -/
theorem C10_keys_at_most_one :
    (∀ s, pyParseKey s = { sql := s, name := none }) ∧
    (∀ block t, pyTableParse block = .ok t →
      t.keys.length ≤ 1 ∧ ∀ p ∈ t.keys, p.1 = none) := by
  refine ⟨fun s => rfl, ?_⟩
  intro block t h
  unfold pyTableParse at h
  split at h
  · rename_i t0 h0
    split at h
    · cases h
    · injection h with h
      subst h
      have hinv := keys_invariant _ _ (Or.inl rfl) t0 h0
      rcases hinv with h1 | ⟨k, h1⟩ <;> rw [h1] <;> constructor <;> simp
  · cases h

def wKeysTable : Table :=
  { sql := "CREATE TABLE `t` (\nKEY a\nKEY b\n)", name := some "t",
    columns := [], keys := [(none, { sql := "KEY b", name := none })] }

/-- Witness for C10: a block with two `KEY` lines parses to a table whose
keys dict has a single entry under `None`. -/
theorem C10_keys_at_most_one_witness :
    wKeysTable.keys.length ≤ 1 ∧ ∀ p ∈ wKeysTable.keys, p.1 = none :=
  C10_keys_at_most_one.2 "CREATE TABLE `t` (\nKEY a\nKEY b\n)" wKeysTable
    (by decide)

/-- C4: a parsed schema diffed against itself produces no comparison-grid
rows (only the header) and no statements in drop-tables or alter-tables
mode. -/
theorem C4_self_diff_empty (sqlText n : String) (s : Schema)
    (h : pySchemaParse sqlText n = .ok s) :
    print_tables_rows s s = [] ∧ sql_drop_tables s s = [] ∧
      sql_alter_tables s s = [] :=
  self_diff_empty s (pySchemaParse_wf sqlText n s h)

def wSelfText : String := "CREATE TABLE `users` (\n`id` int(11) NOT NULL\n)"

def wSelfSchema : Schema :=
  { sql := wSelfText, name := "db.sql",
    tables := [("users",
      { sql := wSelfText, name := some "users",
        columns := [("id", { sql := "`id` int(11) NOT NULL", name := "id",
                             type := "int", length := some 11,
                             precision := none, auto := false,
                             nullable := false })],
        keys := [] })] }

/-- Witness for C4 at a one-table schema. -/
theorem C4_self_diff_empty_witness :
    print_tables_rows wSelfSchema wSelfSchema = [] ∧
    sql_drop_tables wSelfSchema wSelfSchema = [] ∧
    sql_alter_tables wSelfSchema wSelfSchema = [] :=
  C4_self_diff_empty wSelfText "db.sql" wSelfSchema (by decide)

/-- C6: drop-tables mode emits exactly one `DROP TABLE` statement per table
present in destination but absent from source, and nothing else: the output
is the statement list over the destination-minus-source name set, that set
has no duplicates, and membership in it is exactly
destination-and-not-source. -/
theorem C6_drop_tables (src dst : Schema)
    (h : (dictKeys dst.tables).Nodup) :
    sql_drop_tables src dst =
      (setDiff (dictKeys dst.tables) (dictKeys src.tables)).map
        (fun n => "DROP TABLE `" ++ n ++ "`;") ∧
    (setDiff (dictKeys dst.tables) (dictKeys src.tables)).Nodup ∧
    ∀ n, n ∈ setDiff (dictKeys dst.tables) (dictKeys src.tables) ↔
      (n ∈ dictKeys dst.tables ∧ n ∉ dictKeys src.tables) := by
  refine ⟨rfl, List.Nodup.filter _ h, ?_⟩
  intro n
  unfold setDiff
  rw [List.mem_filter]
  simp [List.elem_eq_mem]

def wSrc6 : Schema :=
  { sql := "", name := "source.sql",
    tables := [("users", { sql := "", name := some "users",
                           columns := [], keys := [] })] }

def wDst6 : Schema :=
  { sql := "", name := "destination.sql",
    tables := [("users", { sql := "", name := some "users",
                           columns := [], keys := [] }),
               ("legacy_logs", { sql := "", name := some "legacy_logs",
                                 columns := [], keys := [] })] }

/-- Witness for C6: a destination-only table `legacy_logs` produces exactly
`DROP TABLE \x60legacy_logs\x60;`. -/
theorem C6_drop_tables_witness :
    (sql_drop_tables wSrc6 wDst6 =
      (setDiff (dictKeys wDst6.tables) (dictKeys wSrc6.tables)).map
        (fun n => "DROP TABLE `" ++ n ++ "`;") ∧
     (setDiff (dictKeys wDst6.tables) (dictKeys wSrc6.tables)).Nodup ∧
     ∀ n, n ∈ setDiff (dictKeys wDst6.tables) (dictKeys wSrc6.tables) ↔
       (n ∈ dictKeys wDst6.tables ∧ n ∉ dictKeys wSrc6.tables)) ∧
    sql_drop_tables wSrc6 wDst6 = ["DROP TABLE `legacy_logs`;"] :=
  ⟨C6_drop_tables wSrc6 wDst6 (by decide), by decide⟩

/-- C5: alter-tables mode iterates over the tables present in both schemas
only (first conjunct: the output is the concatenation of per-shared-table
statement lists, so tables not in both yield nothing), and for each column
name of the union of a shared table pair's column sets the emitted
statement is exactly the claimed ADD / DROP / MODIFY statement, or nothing
for an equal column. -/
theorem C5_alter_tables (src dst : Schema) (srcT dstT : Table) (col : String) :
    sql_alter_tables src dst =
      ((setInter (dictKeys src.tables) (dictKeys dst.tables)).map
        (fun both =>
          tableAlterStmts ((src.tables.lookup both).getD default)
                          ((dst.tables.lookup both).getD default))).flatten ∧
    tableAlterStmts srcT dstT =
      ((setUnion (dictKeys srcT.columns) (dictKeys dstT.columns)).map
        (alterStmtsForCol srcT dstT)).flatten ∧
    ((dictKeys srcT.columns).contains col = true →
     (dictKeys dstT.columns).contains col = false →
      alterStmtsForCol srcT dstT col =
        ["ALTER TABLE `" ++ dstT.name.getD "" ++ "` ADD COLUMN " ++
          ((srcT.columns.lookup col).getD default).sql ++ ";"]) ∧
    ((dictKeys dstT.columns).contains col = true →
     (dictKeys srcT.columns).contains col = false →
      alterStmtsForCol srcT dstT col =
        ["ALTER TABLE `" ++ dstT.name.getD "" ++ "` DROP COLUMN `" ++
          col ++ "`;"]) ∧
    ((dictKeys srcT.columns).contains col = true →
     (dictKeys dstT.columns).contains col = true →
      columnEq ((srcT.columns.lookup col).getD default)
               ((dstT.columns.lookup col).getD default) = false →
      alterStmtsForCol srcT dstT col =
        ["ALTER TABLE `" ++ dstT.name.getD "" ++ "` MODIFY COLUMN " ++
          ((srcT.columns.lookup col).getD default).sql ++ ";"]) ∧
    ((dictKeys srcT.columns).contains col = true →
     (dictKeys dstT.columns).contains col = true →
      columnEq ((srcT.columns.lookup col).getD default)
               ((dstT.columns.lookup col).getD default) = true →
      alterStmtsForCol srcT dstT col = []) := by
  refine ⟨rfl, rfl, ?_, ?_, ?_, ?_⟩
  · intro hs hd
    have hs2 : col ∈ dictKeys srcT.columns := by simpa using hs
    have hd2 : col ∉ dictKeys dstT.columns := by simpa using hd
    simp [alterStmtsForCol, hs2, hd2]
  · intro hd hs
    have hd2 : col ∈ dictKeys dstT.columns := by simpa using hd
    have hs2 : col ∉ dictKeys srcT.columns := by simpa using hs
    simp [alterStmtsForCol, hs2, hd2]
  · intro hs hd heq
    have hs2 : col ∈ dictKeys srcT.columns := by simpa using hs
    have hd2 : col ∈ dictKeys dstT.columns := by simpa using hd
    simp [alterStmtsForCol, hs2, hd2, heq]
  · intro hs hd heq
    have hs2 : col ∈ dictKeys srcT.columns := by simpa using hs
    have hd2 : col ∈ dictKeys dstT.columns := by simpa using hd
    simp [alterStmtsForCol, hs2, hd2, heq]

def wCol (n ty : String) (len : Int) (raw : String) : Column :=
  { sql := raw, name := n, type := ty, length := some len,
    precision := none, auto := false, nullable := true }

def wSrcT5 : Table :=
  { sql := "", name := some "users",
    columns := [("id", wCol "id" "int" 11 "`id` int(11)"),
                ("name", wCol "name" "varchar" 64 "`name` varchar(64)"),
                ("age", wCol "age" "int" 11 "`age` int(11)")],
    keys := [] }

def wDstT5 : Table :=
  { sql := "", name := some "users",
    columns := [("id", wCol "id" "int" 11 "`id` int(11)"),
                ("email", wCol "email" "varchar" 128 "`email` varchar(128)"),
                ("age", wCol "age" "int" 12 "`age` int(12)")],
    keys := [] }

def wSrc5 : Schema := { sql := "", name := "s", tables := [("users", wSrcT5)] }

def wDst5 : Schema := { sql := "", name := "d", tables := [("users", wDstT5)] }

/-- Witness for C5: on a shared table, a source-only column yields the ADD
statement, a destination-only column the DROP statement, an unequal shared
column the MODIFY statement, and an equal shared column nothing. -/
theorem C5_alter_tables_witness :
    alterStmtsForCol wSrcT5 wDstT5 "name" =
      ["ALTER TABLE `" ++ wDstT5.name.getD "" ++ "` ADD COLUMN " ++
        ((wSrcT5.columns.lookup "name").getD default).sql ++ ";"] ∧
    alterStmtsForCol wSrcT5 wDstT5 "email" =
      ["ALTER TABLE `" ++ wDstT5.name.getD "" ++ "` DROP COLUMN `" ++
        "email" ++ "`;"] ∧
    alterStmtsForCol wSrcT5 wDstT5 "age" =
      ["ALTER TABLE `" ++ wDstT5.name.getD "" ++ "` MODIFY COLUMN " ++
        ((wSrcT5.columns.lookup "age").getD default).sql ++ ";"] ∧
    alterStmtsForCol wSrcT5 wDstT5 "id" = [] ∧
    sql_alter_tables wSrc5 wDst5 =
      ((setInter (dictKeys wSrc5.tables) (dictKeys wDst5.tables)).map
        (fun both =>
          tableAlterStmts ((wSrc5.tables.lookup both).getD default)
                          ((wDst5.tables.lookup both).getD default))).flatten :=
  ⟨(C5_alter_tables wSrc5 wDst5 wSrcT5 wDstT5 "name").2.2.1 (by decide) (by decide),
   (C5_alter_tables wSrc5 wDst5 wSrcT5 wDstT5 "email").2.2.2.1 (by decide) (by decide),
   (C5_alter_tables wSrc5 wDst5 wSrcT5 wDstT5 "age").2.2.2.2.1 (by decide) (by decide)
     (by decide),
   (C5_alter_tables wSrc5 wDst5 wSrcT5 wDstT5 "id").2.2.2.2.2 (by decide) (by decide)
     (by decide),
   (C5_alter_tables wSrc5 wDst5 wSrcT5 wDstT5 "id").1⟩

theorem count_eq_one_of_nodup_mem {l : List String} {t : String}
    (hnd : l.Nodup) (hmem : t ∈ l) : l.count t = 1 := by
  induction l with
  | nil => cases hmem
  | cons hd tl ih =>
    rw [List.nodup_cons] at hnd
    rcases List.mem_cons.mp hmem with h | h
    · subst h
      rw [List.count_cons_self, List.count_eq_zero_of_not_mem hnd.1]
    · have hne : t ≠ hd := fun he => hnd.1 (he ▸ h)
      rw [List.count_cons_of_ne hne, ih hnd.2 h]

theorem setUnion_count_one {a b : List String} {t : String}
    (hna : a.Nodup) (hnb : b.Nodup)
    (h : (t ∈ a ∧ t ∉ b) ∨ (t ∈ b ∧ t ∉ a)) :
    (setUnion a b).count t = 1 := by
  unfold setUnion
  rw [List.count_append]
  rcases h with ⟨h1, h2⟩ | ⟨h1, h2⟩
  · rw [count_eq_one_of_nodup_mem hna h1]
    have hnot : t ∉ b.filter (fun x => !(a.contains x)) :=
      fun hmem => h2 (List.mem_filter.mp hmem).1
    rw [List.count_eq_zero_of_not_mem hnot]
  · rw [List.count_eq_zero_of_not_mem h2]
    have hp : (fun x => !(a.contains x)) t = true := by
      simp [List.elem_eq_mem, h2]
    rw [List.count_filter (p := fun x => !a.contains x) hp,
      count_eq_one_of_nodup_mem hnb h1]

def cSrc1 : Schema :=
  { sql := "CREATE TABLE `a` (\n)", name := "src",
    tables := [("a", { sql := "CREATE TABLE `a` (\n)", name := some "a",
                       columns := [], keys := [] })] }

def cDst1 : Schema := { sql := "", name := "dst", tables := [] }

/-- Counterexample to C1: in the parsed source schema the table `a` is
present and in the destination it is absent, yet the grid row the engine
emits for `a` is `["", "---- A ----"]` — the present (source) side is the
empty string and the banner lands on the absent (destination) side,
contradicting the claim that the present side carries the banner. -/
theorem C1_counterexample :
    pySchemaParse "CREATE TABLE `a` (\n)" "src" = .ok cSrc1 ∧
    pySchemaParse "" "dst" = .ok cDst1 ∧
    dictKeys cSrc1.tables = ["a"] ∧
    dictKeys cDst1.tables = [] ∧
    print_tables_rows cSrc1 cDst1 = [["", format_table "a"]] ∧
    ("" : String) ≠ format_table "a" := by
  decide

/-- C1 (amended): for every table name present in exactly one schema the
grid gets exactly one row for it (its count in the enumerated union is one),
and that row carries the banner on the side where the table is ABSENT while
the present side is the empty string: `["", banner]` for a source-only
table, `[banner, ""]` for a destination-only table. -/
theorem C1_banner_rows (src dst : Schema) (t : String) :
    print_tables_rows src dst =
      ((setUnion (dictKeys src.tables) (dictKeys dst.tables)).map
        (tableRows src dst)).flatten ∧
    ((dictKeys src.tables).contains t = true →
     (dictKeys dst.tables).contains t = false →
      tableRows src dst t = [["", format_table t]]) ∧
    ((dictKeys dst.tables).contains t = true →
     (dictKeys src.tables).contains t = false →
      tableRows src dst t = [[format_table t, ""]]) ∧
    ((dictKeys src.tables).Nodup → (dictKeys dst.tables).Nodup →
      ((t ∈ dictKeys src.tables ∧ t ∉ dictKeys dst.tables) ∨
       (t ∈ dictKeys dst.tables ∧ t ∉ dictKeys src.tables)) →
      (setUnion (dictKeys src.tables) (dictKeys dst.tables)).count t = 1) := by
  refine ⟨rfl, ?_, ?_, ?_⟩
  · intro hs hd
    have hs2 : t ∈ dictKeys src.tables := by simpa using hs
    have hd2 : t ∉ dictKeys dst.tables := by simpa using hd
    simp [tableRows, hs2, hd2]
  · intro hd hs
    have hd2 : t ∈ dictKeys dst.tables := by simpa using hd
    have hs2 : t ∉ dictKeys src.tables := by simpa using hs
    simp [tableRows, hs2, hd2]
  · intro hns hnd hone
    exact setUnion_count_one hns hnd hone

/-- Witness for the amended C1 at the one-table/empty schema pair. -/
theorem C1_banner_rows_witness :
    tableRows cSrc1 cDst1 "a" = [["", format_table "a"]] ∧
    tableRows cDst1 cSrc1 "a" = [[format_table "a", ""]] ∧
    (setUnion (dictKeys cSrc1.tables) (dictKeys cDst1.tables)).count "a" = 1 :=
  ⟨(C1_banner_rows cSrc1 cDst1 "a").2.1 (by decide) (by decide),
   (C1_banner_rows cDst1 cSrc1 "a").2.2.1 (by decide) (by decide),
   (C1_banner_rows cSrc1 cDst1 "a").2.2.2 (by decide) (by decide)
     (Or.inl ⟨by decide, by decide⟩)⟩

def cBlock2 : String := "CREATE TABLE `t` (\n`a` int(x) NOT NULL\n)"

def cDump2 : String := "-- comment\n\nCREATE TABLE `u` (\n)"

/-- C2, evaluated on the code: a nameless comment block is indeed silently
skipped (second conjunct group), but a malformed column does NOT abort the
schema parse as the claim states — its `ValueError` propagates out of
`Table.parse` only to be caught by the generic `except ValueError` in
`Schema.parse`, so the whole block is silently dropped and the schema parse
succeeds with no tables. -/
theorem C2_malformed_column_skipped :
    pyParseColumn "`a` int(x) NOT NULL" = .error .valueError ∧
    pyTableParse cBlock2 = .error .columnValueError ∧
    pySchemaParse cBlock2 "src" =
      .ok { sql := cBlock2, name := "src", tables := [] } ∧
    pySchemaParse cDump2 "src" =
      .ok { sql := cDump2, name := "src",
            tables := [("u", { sql := "CREATE TABLE `u` (\n)",
                               name := some "u", columns := [],
                               keys := [] })] } := by
  decide

/-- C8: `Column.parse` fails exactly when the line has fewer than two
whitespace-separated tokens or the type token's parenthesized size cannot
be tokenized as integer(s); every other line parses successfully. -/
theorem C8_parse_failure_iff (line : String) :
    (∃ e, pyParseColumn line = .error e) ↔
      ((pySplitWs (pyStrip [' ', ','] line)).length < 2 ∨
        columnSizeMalformed
          ((pySplitWs (pyStrip [' ', ','] line)).getD 1 "") = true) := by
  rcases hp : pySplitWs (pyStrip [' ', ','] line) with _ | ⟨p0, _ | ⟨p1, rest⟩⟩
  · simp [pyParseColumn, hp]
  · simp [pyParseColumn, hp]
  · have hlen : ¬ ((p0 :: p1 :: rest).length < 2) := by
      simp [List.length_cons]
    rw [or_iff_right hlen]
    simp only [List.getD_cons_succ, List.getD_cons_zero]
    by_cases hpar : '(' ∈ p1.data
    · rcases hsplit : pySplitChar '(' (pyStrip [')'] p1) with
        _ | ⟨ty, _ | ⟨len, _ | ⟨m0, ms⟩⟩⟩
      · simp [pyParseColumn, columnSizeMalformed, hp, hpar, hsplit]
      · simp [pyParseColumn, columnSizeMalformed, hp, hpar, hsplit]
      · by_cases hcomma : ',' ∈ len.data
        · rcases hsplit2 : pySplitChar ',' len with
            _ | ⟨l, _ | ⟨p, _ | ⟨n0, ns⟩⟩⟩
          · simp [pyParseColumn, columnSizeMalformed, hp, hpar, hsplit,
              hcomma, hsplit2]
          · simp [pyParseColumn, columnSizeMalformed, hp, hpar, hsplit,
              hcomma, hsplit2]
          · rcases hl : pyInt l with _ | lv <;> rcases hpp : pyInt p with _ | pv <;>
              simp [pyParseColumn, columnSizeMalformed, hp, hpar, hsplit,
                hcomma, hsplit2, hl, hpp]
          · simp [pyParseColumn, columnSizeMalformed, hp, hpar, hsplit,
              hcomma, hsplit2]
        · rcases hl : pyInt len with _ | lv <;>
            simp [pyParseColumn, columnSizeMalformed, hp, hpar, hsplit,
              hcomma, hl]
      · simp [pyParseColumn, columnSizeMalformed, hp, hpar, hsplit]
    · simp [pyParseColumn, columnSizeMalformed, hp, hpar]

theorem matchTableName_ne_empty {line n : String}
    (h : matchTableName line = some n) : n ≠ "" := by
  simp only [matchTableName] at h
  split at h
  · split at h
    · rename_i hmid
      injection h with h
      subst h
      intro he
      have hdata := congrArg String.data he
      dsimp only at hdata
      rw [hdata] at hmid
      simp at hmid
    · cases h
  · cases h

theorem parseLines_name (lines : List String) (t : Table)
    (hcols : ∀ l ∈ takeProcessed lines,
      ['`'].isPrefixOf l.toList → ∃ c, pyParseColumn l = .ok c) :
    ∃ t2, pyTableParseLines t lines = .ok t2 ∧
      ((∀ l ∈ takeProcessed lines, matchTableName l = none) → t2.name = t.name) ∧
      ((∃ l ∈ takeProcessed lines, (matchTableName l).isSome) →
        ∃ n, t2.name = some n ∧ n ≠ "") := by
  induction lines generalizing t with
  | nil =>
    refine ⟨t, rfl, fun _ => rfl, ?_⟩
    rintro ⟨l, hl, _⟩
    cases hl
  | cons line rest ih =>
    rcases hm : matchTableName (pyStrip [' ', ','] line) with _ | n
    · -- no table-name match on this line
      by_cases hb : ['`'] <+: (pyStrip [' ', ','] line).data
      · -- column line
        have hTP : takeProcessed (line :: rest) =
            pyStrip [' ', ','] line :: takeProcessed rest := by
          rw [takeProcessed]
          simp [hm, hb]
        obtain ⟨c, hc⟩ := hcols _ (by rw [hTP]; exact List.mem_cons_self _ _)
          (by simpa using hb)
        have hPL : pyTableParseLines t (line :: rest) =
            pyTableParseLines
              { t with columns := dictInsert t.columns c.name c } rest := by
          rw [pyTableParseLines]
          simp [hm, hb, tableAddColumn, hc]
        obtain ⟨t2, hrun, hA, hB⟩ := ih _
          (fun l hl hpre => hcols l (by rw [hTP]; exact List.mem_cons_of_mem _ hl) hpre)
        refine ⟨t2, by rw [hPL]; exact hrun, ?_, ?_⟩
        · intro hall
          exact hA fun l hl => hall l (by rw [hTP]; exact List.mem_cons_of_mem _ hl)
        · rintro ⟨l, hl, hsome⟩
          rw [hTP] at hl
          rcases List.mem_cons.mp hl with h1 | h1
          · rw [h1, hm] at hsome
            cases hsome
          · exact hB ⟨l, h1, hsome⟩
      · by_cases hk : pyContains (pyStrip [' ', ','] line) "KEY" = true
        · -- KEY line (hb is the negated column-line condition here)
          have hTP : takeProcessed (line :: rest) =
              pyStrip [' ', ','] line :: takeProcessed rest := by
            rw [takeProcessed]
            simp [hm, hb, hk]
          have hPL : pyTableParseLines t (line :: rest) =
              pyTableParseLines (tableAddKey t (pyStrip [' ', ','] line)) rest := by
            rw [pyTableParseLines]
            simp [hm, hb, hk]
          obtain ⟨t2, hrun, hA, hB⟩ := ih _
            (fun l hl hpre => hcols l (by rw [hTP]; exact List.mem_cons_of_mem _ hl) hpre)
          refine ⟨t2, by rw [hPL]; exact hrun, ?_, ?_⟩
          · intro hall
            exact hA fun l hl => hall l (by rw [hTP]; exact List.mem_cons_of_mem _ hl)
          · rintro ⟨l, hl, hsome⟩
            rw [hTP] at hl
            rcases List.mem_cons.mp hl with h1 | h1
            · rw [h1, hm] at hsome
              cases hsome
            · exact hB ⟨l, h1, hsome⟩
        · by_cases hcl : [')'] <+: (pyStrip [' ', ','] line).data
          · -- closing line: the scan stops here
            have hTP : takeProcessed (line :: rest) = [pyStrip [' ', ','] line] := by
              rw [takeProcessed]
              simp [hm, hb, hk, hcl]
            have hPL : pyTableParseLines t (line :: rest) = .ok t := by
              rw [pyTableParseLines]
              simp [hm, hb, hk, hcl]
            refine ⟨t, hPL, fun _ => rfl, ?_⟩
            rintro ⟨l, hl, hsome⟩
            rw [hTP, List.mem_singleton] at hl
            rw [hl, hm] at hsome
            cases hsome
          · -- ignored line
            have hTP : takeProcessed (line :: rest) =
                pyStrip [' ', ','] line :: takeProcessed rest := by
              rw [takeProcessed]
              simp [hm, hb, hk, hcl]
            have hPL : pyTableParseLines t (line :: rest) =
                pyTableParseLines t rest := by
              rw [pyTableParseLines]
              simp [hm, hb, hk, hcl]
            obtain ⟨t2, hrun, hA, hB⟩ := ih t
              (fun l hl hpre => hcols l (by rw [hTP]; exact List.mem_cons_of_mem _ hl) hpre)
            refine ⟨t2, by rw [hPL]; exact hrun, ?_, ?_⟩
            · intro hall
              exact hA fun l hl => hall l (by rw [hTP]; exact List.mem_cons_of_mem _ hl)
            · rintro ⟨l, hl, hsome⟩
              rw [hTP] at hl
              rcases List.mem_cons.mp hl with h1 | h1
              · rw [h1, hm] at hsome
                cases hsome
              · exact hB ⟨l, h1, hsome⟩
    · -- table-name line: record the (non-empty) name
      have hTP : takeProcessed (line :: rest) =
          pyStrip [' ', ','] line :: takeProcessed rest := by
        rw [takeProcessed]
        simp [hm]
      have hPL : pyTableParseLines t (line :: rest) =
          pyTableParseLines { t with name := some n } rest := by
        rw [pyTableParseLines]
        simp [hm]
      obtain ⟨t2, hrun, hA, hB⟩ := ih { t with name := some n }
        (fun l hl hpre => hcols l (by rw [hTP]; exact List.mem_cons_of_mem _ hl) hpre)
      refine ⟨t2, by rw [hPL]; exact hrun, ?_, ?_⟩
      · intro hall
        exfalso
        have := hall _ (by rw [hTP]; exact List.mem_cons_self _ _)
        rw [hm] at this
        cases this
      · intro _
        by_cases hr : ∀ l ∈ takeProcessed rest, matchTableName l = none
        · exact ⟨n, hA hr, matchTableName_ne_empty hm⟩
        · push_neg at hr
          obtain ⟨l, hl, hlm⟩ := hr
          exact hB ⟨l, hl, Option.isSome_iff_ne_none.mpr hlm⟩

/-- Counterexample to C9: in the block `")\nCREATE TABLE \x60t\x60 ("` a
line matching the table-name pattern is present (and every line of the
block column- and key-parses, there being no column or key lines), yet
`Table.parse` fails with `InvalidTableDefinition`, because the leading `)`
line stops the scan before the name line is reached.  So "no line of the
block matches the pattern by end of block" is not equivalent to failing. -/
theorem C9_counterexample :
    pyTableParse ")\nCREATE TABLE `t` (" = .error .invalidTableDefinition ∧
    "CREATE TABLE `t` (" ∈ pySplitChar '\n' ")\nCREATE TABLE `t` (" ∧
    matchTableName (pyStrip [' ', ','] "CREATE TABLE `t` (") = some "t" ∧
    (∀ l ∈ pySplitChar '\n' ")\nCREATE TABLE `t` (",
      ¬ (['`'].isPrefixOf (pyStrip [' ', ','] l).toList = true)) := by
  decide

/-- C9 (amended): provided every processed column line parses,
`Table.parse` fails with `InvalidTableDefinition` exactly when no line the
scan actually processes — the lines up to and including the first
terminating `)` line — matches the table-name pattern; and every
successful parse yields a non-empty table name. -/
theorem C9_invalid_table (block : String)
    (hcols : ∀ l ∈ takeProcessed (pySplitChar '\n' block),
      ['`'].isPrefixOf l.toList → ∃ c, pyParseColumn l = .ok c) :
    (pyTableParse block = .error .invalidTableDefinition ↔
      ∀ l ∈ takeProcessed (pySplitChar '\n' block), matchTableName l = none) ∧
    (∀ t, pyTableParse block = .ok t → ∃ n, t.name = some n ∧ n ≠ "") := by
  obtain ⟨t2, hrun, hA, hB⟩ := parseLines_name (pySplitChar '\n' block)
    { sql := block, name := none, columns := [], keys := [] } hcols
  constructor
  · constructor
    · intro herr
      by_contra hnot
      push_neg at hnot
      obtain ⟨l, hl, hlm⟩ := hnot
      obtain ⟨n, hn, hne⟩ := hB ⟨l, hl, Option.isSome_iff_ne_none.mpr hlm⟩
      unfold pyTableParse at herr
      rw [hrun] at herr
      dsimp only at herr
      rw [hn, Option.getD_some, if_neg hne] at herr
      cases herr
    · intro hall
      have hname : t2.name = none := hA hall
      unfold pyTableParse
      rw [hrun]
      dsimp only
      rw [hname]
      simp
  · intro t ht
    unfold pyTableParse at ht
    rw [hrun] at ht
    dsimp only at ht
    by_cases hc : t2.name.getD "" = ""
    · rw [if_pos hc] at ht
      cases ht
    · rw [if_neg hc] at ht
      injection ht with ht
      subst ht
      cases hn : t2.name with
      | none =>
        rw [hn] at hc
        simp at hc
      | some n =>
        refine ⟨n, rfl, fun he => hc ?_⟩
        rw [hn, Option.getD_some, he]

/-- Witness for the amended C9 at a block whose only processed line is its
closing parenthesis (no column lines, so the proviso is vacuous). -/
theorem C9_invalid_table_witness :
    (pyTableParse ")\nCREATE TABLE `t` (" = .error .invalidTableDefinition ↔
      ∀ l ∈ takeProcessed (pySplitChar '\n' ")\nCREATE TABLE `t` ("),
        matchTableName l = none) ∧
    (∀ t, pyTableParse ")\nCREATE TABLE `t` (" = .ok t →
      ∃ n, t.name = some n ∧ n ≠ "") :=
  C9_invalid_table ")\nCREATE TABLE `t` (" (by
    intro l hl hpre
    exfalso
    revert hpre
    have hone : takeProcessed (pySplitChar '\n' ")\nCREATE TABLE `t` (") =
        [")"] := by decide
    rw [hone, List.mem_singleton] at hl
    subst hl
    decide)

end SqlDiff
